import Mathlib

/-!
Shallow embedding of the exec-dispatch subsystem of the krustlet node agent
(crates/kubelet: exec/mod.rs, webserver/mod.rs, handle; crates/wasi-provider:
wasi_runtime.rs), together with proofs about the embedded operations.

Rust strings are modelled as Lean `String` (backed by `List Char` via
`String.data`); `Result`/`anyhow::Result` as `Except`; `Option` as `Option`.
-/

deriving instance DecidableEq for Except

namespace Krustlet

/-- The space character, written by code point to keep character literals
simple.  Used for the shell-like command syntax of `parse_command`. -/
def spaceChar : Char := Char.ofNat 32

/-- Model of Rust `str::split` with a one-character separator, operating on
the character list of the string: yields the (possibly empty) fragments
between occurrences of the separator.  As in Rust, the result is never the
empty list; splitting the empty string yields one empty fragment. -/
def splitOnChar (sep : Char) : List Char → List (List Char)
  | [] => [[]]
  | c :: cs =>
    match splitOnChar sep cs with
    | [] => [[c]]
    | t :: ts => if c = sep then [] :: t :: ts else (c :: t) :: ts

/-- Command to run (kubelet/src/exec/mod.rs): name of the function to
execute and the arguments passed to it. -/
structure Command where
  function : String
  args : List String
deriving DecidableEq

/-- Embedding of `parse_command` (kubelet/src/exec/mod.rs, lines 34-46):
split the input on single spaces, take token 0 as the function name
(erroring if absent, which cannot happen since a split is never empty) and
the remaining tokens as the args. -/
def parse_command (command : String) : Except String Command :=
  let tokens : List String := (splitOnChar spaceChar command.data).map String.mk
  match tokens[0]? with
  | none => .error "No function specified in the command"
  | some f => .ok { function := f, args := tokens.drop 1 }

/-- Options wrapping a `Command` for an exec request.  Modelled from the
spec: the struct `CommandOptions` is referenced by webserver/mod.rs but its
declaration is not among the provided sources; the spec data model gives it
as a command plus four reserved stdio/tty flags, matching the construction
site in `parse_exec_query`. -/
structure CommandOptions where
  command : Command
  stdin : Bool
  stdout : Bool
  stderr : Bool
  tty : Bool
deriving DecidableEq

/-- Processing loop of `parse_exec_query` (kubelet/src/webserver/mod.rs,
lines 168-186): walk the pairs in order, keeping the current optional
function name and accumulated args.  Each pair is split on the first
equals sign; a missing key or value aborts with an error (the key can in
fact never be missing, since a split is never empty).  The first pair with
key `command` supplies the function, each later one appends an arg, and
all other keys are ignored. -/
def parseQueryPairs :
    List (List Char) → Option String → List String →
    Except String (Option String × List String)
  | [], f, args => .ok (f, args)
  | pair :: rest, f, args =>
    let keyvalue := splitOnChar '=' pair
    match keyvalue[0]? with
    | none => .error "Cannot get the query key"
    | some key =>
      match keyvalue[1]? with
      | none => .error "Cannot get the query value"
      | some value =>
        if key = "command".data then
          match f with
          | none => parseQueryPairs rest (some (String.mk value)) args
          | some _ => parseQueryPairs rest f (args ++ [String.mk value])
        else
          parseQueryPairs rest f args

/-- Embedding of `parse_exec_query` (kubelet/src/webserver/mod.rs, lines
163-201): split the raw query on ampersands, process the pairs, and wrap
the resulting command in `CommandOptions` with every flag fixed to false;
if no `command` key was seen, fail. -/
def parse_exec_query (query : String) : Except String CommandOptions :=
  match parseQueryPairs (splitOnChar '&' query.data) none [] with
  | .error e => .error e
  | .ok (none, _) => .error "Error while parsing the exec query string"
  | .ok (some f, args) =>
    .ok { command := { function := f, args := args }
          stdin := false, stdout := false, stderr := false, tty := false }

/-- Whether a raw query pair contains an equals sign, i.e. has a value
component (index 1 of its split). -/
def pairHasValue (pair : List Char) : Bool :=
  ((splitOnChar '=' pair)[1]?).isSome

/-- Spec-side reading of the query grammar: the values of the pairs whose
key equals `command`, in encounter order. -/
def pairCommandValues (pairs : List (List Char)) : List String :=
  pairs.filterMap (fun pair =>
    match (splitOnChar '=' pair)[0]?, (splitOnChar '=' pair)[1]? with
    | some key, some value =>
      if key = "command".data then some (String.mk value) else none
    | _, _ => none)

/-- The `command` values of a whole query string, in encounter order. -/
def commandValues (query : String) : List String :=
  pairCommandValues (splitOnChar '&' query.data)

/-- Decimal digit string of a natural number, most significant digit
first, written with explicit fuel (the fuel is always sufficient at
`n + 1`) so that the kernel can evaluate it. -/
def decimalDigitsAux : Nat → Nat → List Char
  | 0, _ => []
  | fuel + 1, n =>
    if n < 10 then [Nat.digitChar n]
    else decimalDigitsAux fuel (n / 10) ++ [Nat.digitChar (n % 10)]

/-- Decimal digit string of a natural number, most significant first. -/
def decimalDigits (n : Nat) : List Char := decimalDigitsAux (n + 1) n

/-- Value of a digit string: `none` unless the list is nonempty and all
characters are decimal digits. -/
def digitsToNat? (cs : List Char) : Option Nat :=
  if cs.isEmpty then none
  else if cs.all Char.isDigit then
    some (cs.foldl (fun a c => a * 10 + (c.toNat - 48)) 0)
  else none

/-- Drop one leading plus sign, as Rust integer parsing does. -/
def stripPlusSign (cs : List Char) : List Char :=
  match cs with
  | [] => []
  | c :: rest => if c = '+' then rest else c :: rest

/-- Model of Rust `str::parse` for an unsigned integer of bit width
`width` (`u32`/`u64`): an optional leading plus sign, then a nonempty run
of decimal digits, with the value required to fit below `2 ^ width`. -/
def parseUnsignedRust (width : Nat) (s : String) : Option Nat :=
  match digitsToNat? (stripPlusSign s.data) with
  | some n => if n < 2 ^ width then some n else none
  | none => none

/-- Model of Rust `str::parse` for a signed integer of bit width `width`
(`i32`/`i64`): an optional leading minus or plus sign, then a nonempty run
of decimal digits, with the value required to fit in the two's complement
range `[-2 ^ (width - 1), 2 ^ (width - 1) - 1]`. -/
def parseSignedRust (width : Nat) (s : String) : Option Int :=
  match s.data with
  | [] => none
  | c :: rest =>
    if c = '-' then
      match digitsToNat? rest with
      | some n => if (n : Int) ≤ 2 ^ (width - 1) then some (-(n : Int)) else none
      | none => none
    else
      match digitsToNat? (stripPlusSign (c :: rest)) with
      | some n => if (n : Int) < 2 ^ (width - 1) then some ((n : Int)) else none
      | none => none

/-- wasmtime `ValType`, the declared kind of a wasm value.  The reference
kinds are named `ExtRef`/`FunRef` here. -/
inductive ValType
  | I32
  | I64
  | F32
  | F64
  | V128
  | ExtRef
  | FunRef
deriving DecidableEq

/-- wasmtime `Val`.  Per the wasmtime API the float variants carry the raw
bit pattern as an unsigned integer (`F32(u32)` / `F64(u64)`), not a float;
`V128` carries a `u128`.  Integers are modelled as `Int` (the i32/i64
value) and the unsigned payloads as `Nat`. -/
inductive Val
  | I32 (i : Int)
  | I64 (i : Int)
  | F32 (bits : Nat)
  | F64 (bits : Nat)
  | ExtRef
  | FunRef
  | V128 (i : Nat)
deriving DecidableEq

/-- Errors of the exec argument coercion (wasi_runtime.rs `parse_args`):
the three `bail!`/`?` sites of the source.  Parse failures record the
parameter kind and the offending argument string. -/
inductive ExecError
  | NotEnoughArguments
  | UnsupportedArgumentType (ty : ValType)
  | ParseFailure (ty : ValType) (arg : String)
deriving DecidableEq

/-- One step of the coercion in `parse_args` (wasi_runtime.rs, lines
474-480): the `match ty` on the parameter kind.  `I32`/`I64` call Rust
`parse` at the signed 32/64-bit type; because wasmtime `Val::F32`/`Val::F64`
carry their payload as `u32`/`u64` raw bits, `F32`/`F64` call Rust `parse`
at the unsigned 32/64-bit type; every other kind is unsupported. -/
def coerceVal (ty : ValType) (arg : String) : Except ExecError Val :=
  match ty with
  | .I32 =>
    match parseSignedRust 32 arg with
    | some n => .ok (.I32 n)
    | none => .error (.ParseFailure .I32 arg)
  | .I64 =>
    match parseSignedRust 64 arg with
    | some n => .ok (.I64 n)
    | none => .error (.ParseFailure .I64 arg)
  | .F32 =>
    match parseUnsignedRust 32 arg with
    | some n => .ok (.F32 n)
    | none => .error (.ParseFailure .F32 arg)
  | .F64 =>
    match parseUnsignedRust 64 arg with
    | some n => .ok (.F64 n)
    | none => .error (.ParseFailure .F64 arg)
  | t => .error (.UnsupportedArgumentType t)

/-- Embedding of `parse_args` (wasi_runtime.rs, lines 463-486): iterate
over the declared parameter kinds, taking one argument string per
parameter (failing with `NotEnoughArguments` when the iterator is
exhausted) and coercing it; arguments beyond the parameter list are never
consumed. -/
def parse_args : List ValType → List String → Except ExecError (List Val)
  | [], _ => .ok []
  | _ :: _, [] => .error .NotEnoughArguments
  | ty :: tys, arg :: rest => do
    let v ← coerceVal ty arg
    let vs ← parse_args tys rest
    .ok (v :: vs)

/-- Decimal string of a natural number. -/
def natToString (n : Nat) : String := String.mk (decimalDigits n)

/-- Decimal string of an integer, with a leading minus sign when
negative: the rendering of Rust `format` on a signed integer. -/
def intToString (i : Int) : String :=
  if i < 0 then String.mk ('-' :: decimalDigits i.natAbs)
  else String.mk (decimalDigits i.natAbs)

/-- Embedding of `stringify_val` (wasi_runtime.rs, lines 488-498): Rust
`format` of the payload of each variant; since the float variants carry
raw bits as unsigned integers, they render as unsigned decimals, and both
reference variants render as the fixed text. -/
def stringify_val (val : Val) : String :=
  match val with
  | .I32 i => intToString i
  | .I64 i => intToString i
  | .F32 f => natToString f
  | .F64 f => natToString f
  | .ExtRef => "<externref>"
  | .FunRef => "<externref>"
  | .V128 i => natToString i

/-- Embedding of the success rendering of an exec call (wasi_runtime.rs,
lines 404-416): each returned value is stringified and the results are
joined with newline separators. -/
def exec_result_message (result : List Val) : String :=
  String.intercalate "\n" (result.map stringify_val)

/-- Spec-side predicate: the string is the decimal form of an integer,
i.e. an optional leading minus sign followed by a nonempty digit run. -/
def isDecimalString (s : String) : Bool :=
  match s.data with
  | [] => false
  | c :: rest =>
    if c = '-' then !rest.isEmpty && rest.all Char.isDigit
    else (c :: rest).all Char.isDigit

/-- Spec-side predicate: the value is one of the numeric kinds (the two
integers, the two raw-bits floats, `V128`), as opposed to a reference. -/
def isNumericVal : Val → Bool
  | .I32 _ => true
  | .I64 _ => true
  | .F32 _ => true
  | .F64 _ => true
  | .V128 _ => true
  | .ExtRef => false
  | .FunRef => false

/-- Observable lifecycle event sent on the status channel, keeping only
the data the claims are about (`Running` and `Terminated` with its failed
flag; timestamps and messages are irrelevant to ordering claims). -/
inductive StatusEv
  | running
  | terminated (failed : Bool)
deriving DecidableEq

/-- How the designated entry point behaves once the module is
instantiated: the export named in the source is either absent (command
serving), present but not a function, a function that traps, or a
function that runs to completion. -/
inductive StartBehavior
  | notAFunc
  | traps
  | runsToCompletion
deriving DecidableEq

/-- Status events emitted by `spawn_wasmtime` (wasi_runtime.rs, lines
236-437), as a function of which steps succeed.  Tracing the source: a
module creation failure, an import resolution failure or an instantiation
failure each send a single `Terminated(failed: true)` and return early
(lines 243, 280, 301); otherwise `Running` is sent (line 319) before the
entry-point lookup; with an entry point, exactly one `Terminated` follows
(failed when the export is not a function or the call traps, lines 340,
361, otherwise not, line 376); without one, the command loop (lines
390-433) contains no status send at all and exits with an error. -/
def spawn_wasmtime_status (moduleOk importsOk instantiateOk : Bool)
    (start : Option StartBehavior) : List StatusEv :=
  if moduleOk = false then [.terminated true]
  else if importsOk = false then [.terminated true]
  else if instantiateOk = false then [.terminated true]
  else
    .running ::
      match start with
      | some .notAFunc => [.terminated true]
      | some .traps => [.terminated true]
      | some .runsToCompletion => [.terminated false]
      | none => []

/-- The status shapes the spec allows, written from the words of the
claim: a lone failed termination, or a `Running` followed by exactly one
`Terminated`. -/
def specStatusShape : List StatusEv → Bool
  | [.terminated true] => true
  | [.running, .terminated _] => true
  | _ => false

/-- State of one direction of a std mpsc channel: the queued messages and
whether each endpoint is still alive.  A send succeeds exactly when the
receiver end has not been dropped; a receive that completes returns the
first queued message, or fails when the queue is empty and the sender has
been dropped (an empty queue with a live sender blocks instead, so a
completed receive on an empty queue witnesses a dropped sender). -/
structure ChannelSt (α : Type) where
  buffer : List α
  rxAlive : Bool
  txAlive : Bool

/-- mpsc send: enqueue when the receiver is alive, fail otherwise. -/
def mpsc_send {α : Type} (ch : ChannelSt α) (a : α) : Option (ChannelSt α) :=
  if ch.rxAlive then some { ch with buffer := ch.buffer ++ [a] } else none

/-- mpsc receive, at the moment it completes: the first queued message if
any; `none` models the disconnect error, which is the only way a receive
on an empty queue can complete. -/
def mpsc_recv {α : Type} (ch : ChannelSt α) : Option (α × ChannelSt α) :=
  match ch.buffer with
  | a :: rest => some (a, { ch with buffer := rest })
  | [] => none

/-- Errors surfaced by `Runtime::exec`: a channel endpoint being gone
(either the command send or the response receive failing), or an error
result forwarded from the worker over the response channel. -/
inductive RuntimeError
  | channel (msg : String)
  | remote (msg : String)
deriving DecidableEq

/-- Embedding of `Runtime::exec` (wasi_runtime.rs, lines 48-61) against
given states of the command and response channels: send the command
(mapping a send failure to the first channel error message), then receive
the reply (mapping a receive failure to the second), and return the
received result as the call result. -/
def runtime_exec (cmdCh : ChannelSt Command)
    (respCh : ChannelSt (Except String String)) (c : Command) :
    Except RuntimeError String :=
  match mpsc_send cmdCh c with
  | none => .error (.channel "Cannot send the exec command to the runtime")
  | some _ =>
    match mpsc_recv respCh with
    | none => .error (.channel "Cannot receive the exec response from the runtime")
    | some (resp, _) =>
      match resp with
      | .ok s => .ok s
      | .error e => .error (.remote e)

/-- HTTP method, restricted to the two the claims mention. -/
inductive Method
  | GET
  | POST
deriving DecidableEq

/-- An incoming HTTP request as the webserver routes observe it: method,
path segments, the raw query string if any, whether the request is a
valid WebSocket upgrade handshake (per RFC 6455 an upgrade is a GET, so a
POST request never has this set), and whether its query string
deserializes as log options (the `warp::query` filter of the logs
route). -/
structure Request where
  method : Method
  path : List String
  rawQuery : Option String
  wsUpgrade : Bool
  logQueryOk : Bool

/-- The four routes registered by `start` (webserver/mod.rs, lines
23-62). -/
inductive Route
  | ping
  | health
  | containerLogs
  | wsExec
deriving DecidableEq

/-- Whether a route filter accepts a request, read off the warp filter
chains in `start`: `ping` is GET at the root, `health` is GET /healthz,
`containerLogs` is GET with a four-segment path headed `containerLogs`
and a query that parses as log options, and `wsExec` is a WebSocket
upgrade (hence GET) with a four-segment path headed `exec` and a raw
query string. -/
def routeAccepts : Route → Request → Bool
  | .ping, r => r.method == .GET && r.path == []
  | .health, r => r.method == .GET && r.path == ["healthz"]
  | .containerLogs, r =>
    r.method == .GET && r.path.length == 4
      && r.path[0]? == some "containerLogs" && r.logQueryOk
  | .wsExec, r =>
    r.method == .GET && r.path.length == 4 && r.path[0]? == some "exec"
      && r.rawQuery.isSome && r.wsUpgrade

/-- The route set of the server, in registration order (`ping.or(health)
.or(logs).or(ws_exec)` in `start`). -/
def serverRoutes : List Route := [.ping, .health, .containerLogs, .wsExec]

/-- Whether any registered route accepts the request; when false, warp
answers with a rejection, not with a handler response. -/
def requestHandled (r : Request) : Bool :=
  serverRoutes.any (fun route => routeAccepts route r)

/-- wire tag for a successful exec result frame (webserver/mod.rs line 103). -/
def STDOUT_CHANNEL : Nat := 1

/-- wire tag for an exec error frame (webserver/mod.rs line 104). -/
def STDERR_CHANNEL : Nat := 2

/-- UTF-8 encoding of one character, as byte values. -/
def utf8EncodeCharNat (c : Char) : List Nat :=
  let n := c.toNat
  if n < 128 then [n]
  else if n < 2048 then [192 + n / 64, 128 + n % 64]
  else if n < 65536 then [224 + n / 4096, 128 + n / 64 % 64, 128 + n % 64]
  else [240 + n / 262144, 128 + n / 4096 % 64, 128 + n / 64 % 64, 128 + n % 64]

/-- Concatenation of byte lists. -/
def flattenBytes : List (List Nat) → List Nat
  | [] => []
  | l :: ls => l ++ flattenBytes ls

/-- UTF-8 bytes of a string. -/
def utf8Bytes (s : String) : List Nat :=
  flattenBytes (s.data.map utf8EncodeCharNat)

/-- Embedding of `handle_exec` (webserver/mod.rs, lines 108-155) as the
list of binary frames it writes to the socket, with the provider exec
collaborator passed as a function: nothing when the query fails to parse,
otherwise exactly one frame — the stdout tag byte followed by the UTF-8
result bytes on success, or the stderr tag byte followed by the UTF-8
rendering of the error on failure. -/
def handle_exec_frames (query : String)
    (providerExec : CommandOptions → Except String String) :
    List (List Nat) :=
  match parse_exec_query query with
  | .error _ => []
  | .ok opts =>
    match providerExec opts with
    | .ok s => [STDOUT_CHANNEL :: utf8Bytes s]
    | .error e => [STDERR_CHANNEL :: utf8Bytes e]

/-! ## Helper lemmas -/

theorem splitOnChar_ne_nil (sep : Char) (l : List Char) :
    splitOnChar sep l ≠ [] := by
  cases l with
  | nil => simp [splitOnChar]
  | cons c cs =>
    simp only [splitOnChar]
    cases h : splitOnChar sep cs with
    | nil => simp
    | cons t ts => by_cases hc : c = sep <;> simp [hc]

theorem splitOnChar_head (sep : Char) (l : List Char) :
    ∃ ts, splitOnChar sep l = l.takeWhile (fun c => c != sep) :: ts := by
  induction l with
  | nil => exact ⟨[], rfl⟩
  | cons c cs ih =>
    obtain ⟨ts, hts⟩ := ih
    by_cases hc : c = sep
    · exact ⟨cs.takeWhile (fun c => c != sep) :: ts, by
        simp [splitOnChar, hts, hc, List.takeWhile_cons]⟩
    · exact ⟨ts, by simp [splitOnChar, hts, hc, List.takeWhile_cons]⟩

theorem digitChar_spec (d : Nat) (h : d < 10) :
    (Nat.digitChar d).isDigit = true ∧ (Nat.digitChar d).toNat = 48 + d := by
  interval_cases d <;> exact ⟨by decide, by decide⟩

theorem decimalDigitsAux_spec (fuel : Nat) :
    ∀ n, n < fuel →
      decimalDigitsAux fuel n ≠ []
      ∧ (decimalDigitsAux fuel n).all Char.isDigit = true
      ∧ ∀ a : Nat,
          (decimalDigitsAux fuel n).foldl (fun a c => a * 10 + (c.toNat - 48)) a
            = a * 10 ^ (decimalDigitsAux fuel n).length + n := by
  induction fuel with
  | zero => omega
  | succ fuel ih =>
    intro n hn
    by_cases h10 : n < 10
    · obtain ⟨hd, hv⟩ := digitChar_spec n h10
      refine ⟨by simp [decimalDigitsAux, h10], ?_, ?_⟩
      · simp [decimalDigitsAux, h10, hd]
      · intro a
        simp [decimalDigitsAux, h10, List.foldl, hv]
    · have hlt : n / 10 < fuel := by
        have hdl := Nat.div_lt_self (show 0 < n by omega) (show 1 < 10 by omega)
        omega
      obtain ⟨hne, hall, hfold⟩ := ih (n / 10) hlt
      obtain ⟨hd, hv⟩ := digitChar_spec (n % 10) (Nat.mod_lt n (by omega))
      refine ⟨by simp [decimalDigitsAux, h10], ?_, ?_⟩
      · simp [decimalDigitsAux, h10, List.all_append, hall, hd]
      · intro a
        simp only [decimalDigitsAux, h10, if_neg, ite_false, List.foldl_append,
          List.length_append, List.length_cons, List.length_nil]
        rw [hfold a]
        simp only [List.foldl, hv]
        have hmod : 48 + n % 10 - 48 = n % 10 := by omega
        rw [hmod, pow_succ]
        have hdm := Nat.div_add_mod n 10
        ring_nf
        omega

theorem digitsToNat?_decimalDigits (n : Nat) :
    digitsToNat? (decimalDigits n) = some n := by
  obtain ⟨hne, hall, hfold⟩ := decimalDigitsAux_spec (n + 1) n (Nat.lt_succ_self n)
  unfold decimalDigits digitsToNat?
  rw [if_neg (by simpa [List.isEmpty_iff] using hne), if_pos hall]
  rw [hfold 0]
  simp

theorem decimalDigits_head_digit (n : Nat) :
    ∃ c rest, decimalDigits n = c :: rest ∧ c.isDigit = true := by
  obtain ⟨hne, hall, _⟩ := decimalDigitsAux_spec (n + 1) n (Nat.lt_succ_self n)
  unfold decimalDigits
  cases h : decimalDigitsAux (n + 1) n with
  | nil => exact absurd h hne
  | cons c rest =>
    rw [h, List.all_cons, Bool.and_eq_true] at hall
    exact ⟨c, rest, rfl, hall.1⟩

theorem decimalDigits_all_digit (n : Nat) :
    (decimalDigits n).all Char.isDigit = true :=
  (decimalDigitsAux_spec (n + 1) n (Nat.lt_succ_self n)).2.1

theorem decimalDigits_ne_nil (n : Nat) : decimalDigits n ≠ [] :=
  (decimalDigitsAux_spec (n + 1) n (Nat.lt_succ_self n)).1

theorem isDigit_ne_minus {c : Char} (h : c.isDigit = true) : c ≠ '-' := by
  intro hc
  rw [hc] at h
  exact absurd h (by decide)

theorem isDigit_ne_plus {c : Char} (h : c.isDigit = true) : c ≠ '+' := by
  intro hc
  rw [hc] at h
  exact absurd h (by decide)

theorem parseUnsignedRust_decimal (w n : Nat) (h : n < 2 ^ w) :
    parseUnsignedRust w (String.mk (decimalDigits n)) = some n := by
  obtain ⟨c, rest, hcr, hd⟩ := decimalDigits_head_digit n
  have hdata : (String.mk (decimalDigits n)).data = decimalDigits n := rfl
  unfold parseUnsignedRust stripPlusSign
  rw [hdata, hcr]
  simp only [if_neg (isDigit_ne_plus hd), ← hcr, digitsToNat?_decimalDigits]
  simp [h]

theorem parseSignedRust_decimal (w n : Nat) (h : (n : Int) < 2 ^ (w - 1)) :
    parseSignedRust w (String.mk (decimalDigits n)) = some (n : Int) := by
  obtain ⟨c, rest, hcr, hd⟩ := decimalDigits_head_digit n
  have hdata : (String.mk (decimalDigits n)).data = decimalDigits n := rfl
  unfold parseSignedRust stripPlusSign
  rw [hdata, hcr]
  simp only [if_neg (isDigit_ne_minus hd), if_neg (isDigit_ne_plus hd), ← hcr,
    digitsToNat?_decimalDigits]
  simp [h]

theorem parseSignedRust_decimal_neg (w n : Nat) (h : (n : Int) ≤ 2 ^ (w - 1)) :
    parseSignedRust w (String.mk ('-' :: decimalDigits n)) = some (-(n : Int)) := by
  have hdata : (String.mk ('-' :: decimalDigits n)).data = '-' :: decimalDigits n := rfl
  unfold parseSignedRust
  rw [hdata]
  simp only [reduceIte, digitsToNat?_decimalDigits]
  simp [h]

theorem isDecimalString_natToString (n : Nat) :
    isDecimalString (natToString n) = true := by
  obtain ⟨c, rest, hcr, hd⟩ := decimalDigits_head_digit n
  have hall := decimalDigits_all_digit n
  unfold natToString isDecimalString
  have hdata : (String.mk (decimalDigits n)).data = decimalDigits n := rfl
  rw [hdata, hcr]
  rw [hcr] at hall
  simp only [if_neg (isDigit_ne_minus hd)]
  exact hall

theorem isDecimalString_intToString (i : Int) :
    isDecimalString (intToString i) = true := by
  unfold intToString
  by_cases h : i < 0
  · rw [if_pos h]
    unfold isDecimalString
    have hdata : (String.mk ('-' :: decimalDigits i.natAbs)).data
        = '-' :: decimalDigits i.natAbs := rfl
    rw [hdata]
    simp only [reduceIte]
    have hall := decimalDigits_all_digit i.natAbs
    have hne := decimalDigits_ne_nil i.natAbs
    simp [hall, List.isEmpty_iff, hne]
  · rw [if_neg h]
    exact isDecimalString_natToString i.natAbs

theorem parseQueryPairs_some (pairs : List (List Char)) (f0 : String) :
    ∀ args,
      parseQueryPairs pairs (some f0) args =
        if pairs.all pairHasValue then
          .ok (some f0, args ++ pairCommandValues pairs)
        else .error "Cannot get the query value" := by
  induction pairs with
  | nil => intro args; simp [parseQueryPairs, pairCommandValues]
  | cons p rest ih =>
    intro args
    cases hsp : splitOnChar '=' p with
    | nil => exact absurd hsp (splitOnChar_ne_nil _ _)
    | cons k kvrest =>
      cases hv : kvrest with
      | nil =>
        have hpv : pairHasValue p = false := by
          simp [pairHasValue, hsp, hv]
        simp [parseQueryPairs, hsp, hv, List.all_cons, hpv]
      | cons v vrest =>
        have hpv : pairHasValue p = true := by
          simp [pairHasValue, hsp, hv]
        have hcv : pairCommandValues (p :: rest) =
            (if k = "command".data then [String.mk v] else [])
              ++ pairCommandValues rest := by
          by_cases hk : k = "command".data <;>
            simp [pairCommandValues, hsp, hv, hk]
        by_cases hk : k = "command".data
        · simp [parseQueryPairs, hsp, hv, hk, List.all_cons, hpv, ih, hcv]
        · simp [parseQueryPairs, hsp, hv, hk, List.all_cons, hpv, ih, hcv]

theorem parseQueryPairs_none (pairs : List (List Char)) :
    ∀ args,
      parseQueryPairs pairs none args =
        if pairs.all pairHasValue then
          match pairCommandValues pairs with
          | [] => .ok (none, args)
          | v :: vs => .ok (some v, args ++ vs)
        else .error "Cannot get the query value" := by
  induction pairs with
  | nil => intro args; simp [parseQueryPairs, pairCommandValues]
  | cons p rest ih =>
    intro args
    cases hsp : splitOnChar '=' p with
    | nil => exact absurd hsp (splitOnChar_ne_nil _ _)
    | cons k kvrest =>
      cases hv : kvrest with
      | nil =>
        have hpv : pairHasValue p = false := by
          simp [pairHasValue, hsp, hv]
        simp [parseQueryPairs, hsp, hv, List.all_cons, hpv]
      | cons v vrest =>
        have hpv : pairHasValue p = true := by
          simp [pairHasValue, hsp, hv]
        have hcv : pairCommandValues (p :: rest) =
            (if k = "command".data then [String.mk v] else [])
              ++ pairCommandValues rest := by
          by_cases hk : k = "command".data <;>
            simp [pairCommandValues, hsp, hv, hk]
        by_cases hk : k = "command".data
        · rw [hcv]
          simp only [hk, if_pos, reduceIte]
          simp only [parseQueryPairs, hsp, hv, hk]
          simp only [List.getElem?_cons_zero, List.getElem?_cons_succ]
          rw [parseQueryPairs_some rest (String.mk v) args]
          simp [List.all_cons, hpv]
        · rw [hcv]
          simp only [hk, reduceIte, List.nil_append]
          simp only [parseQueryPairs, hsp, hv]
          simp only [List.getElem?_cons_zero, List.getElem?_cons_succ]
          rw [if_neg (show ¬k = ['c', 'o', 'm', 'm', 'a', 'n', 'd'] by
            simpa using hk)]
          rw [ih args]
          simp [List.all_cons, hpv]

theorem parse_args_short (params : List ValType) :
    ∀ args : List String, args.length < params.length →
      (∀ p ∈ params.zip args, (coerceVal p.1 p.2).isOk = true) →
      parse_args params args = .error .NotEnoughArguments := by
  induction params with
  | nil => intro args hlen; simp at hlen
  | cons t ts ih =>
    intro args hlen hok
    cases args with
    | nil => rfl
    | cons a as =>
      have h1 : (coerceVal t a).isOk = true := by
        exact hok (t, a) (by simp [List.zip_cons_cons])
      cases hc : coerceVal t a with
      | error e => rw [hc] at h1; exact absurd h1 (by simp [Except.isOk, Except.toBool])
      | ok v =>
        have h2 : parse_args ts as = .error .NotEnoughArguments := by
          refine ih as (by simpa using hlen) ?_
          intro p hp
          exact hok p (by simp [List.zip_cons_cons, hp])
        simp only [parse_args, hc, h2]
        rfl

theorem parse_args_truncate (params : List ValType) :
    ∀ args : List String, params.length ≤ args.length →
      parse_args params args = parse_args params (args.take params.length) := by
  induction params with
  | nil => intro args h; rfl
  | cons t ts ih =>
    intro args h
    cases args with
    | nil => simp at h
    | cons a as =>
      simp only [List.length_cons, List.take_succ_cons]
      simp only [parse_args]
      rw [ih as (by simpa using h)]

/-! ## Claim theorems -/

/-- C1, counterexample: in command-serving mode (module created, imports
resolved, instance built, no designated entry-point export) the worker
emits exactly `[Running]` — the dispatch loop never emits a `Terminated`
— which is neither of the two shapes the claim allows. -/
theorem C1_counterexample :
    spawn_wasmtime_status true true true none = [.running]
    ∧ specStatusShape (spawn_wasmtime_status true true true none) = false := by
  decide

/-- C1, amended: for every combination of step outcomes the emitted status
sequence is `[Terminated(failed: true)]` exactly when module load, import
resolution or instantiation failed, `[Running, Terminated(b)]` for some
`b` exactly in entry-point mode, and `[Running]` alone (no `Terminated`
ever) exactly in command-serving mode. -/
theorem C1_status_shapes :
    ∀ (moduleOk importsOk instantiateOk : Bool) (start : Option StartBehavior),
      (spawn_wasmtime_status moduleOk importsOk instantiateOk start
          = [.terminated true]
        ∧ (moduleOk = false ∨ importsOk = false ∨ instantiateOk = false))
      ∨ ((∃ b, spawn_wasmtime_status moduleOk importsOk instantiateOk start
            = [.running, .terminated b]) ∧ start ≠ none)
      ∨ (spawn_wasmtime_status moduleOk importsOk instantiateOk start
            = [.running]
          ∧ start = none) := by
  intro mo io ins st
  cases mo <;> cases io <;> cases ins <;> rcases st with _ | sb <;>
    first
    | exact .inr (.inr ⟨rfl, rfl⟩)
    | exact .inl ⟨rfl, by simp⟩
    | (cases sb <;> exact .inr (.inl ⟨⟨_, rfl⟩, by simp⟩))

/-- C2, counterexample: a concrete POST request to
`/exec/default/mypod/mycont` with a raw query string is accepted by none
of the four registered routes, so the server never produces the HTTP
200/500 exec responses the claim describes (warp answers with a
rejection instead). -/
theorem C2_counterexample :
    requestHandled
      { method := .POST, path := ["exec", "default", "mypod", "mycont"],
        rawQuery := some "command=add&command=1&command=2",
        wsUpgrade := false, logQueryOk := false } = false := by
  decide

/-- C2, amended: the server does not support the unary POST exec variant:
no registered route (root ping, healthz, containerLogs, WebSocket exec)
accepts a POST to `/exec/{namespace}/{pod}/{container}` with a raw query
string, for any namespace, pod, container or query (a POST request is
not a WebSocket upgrade handshake, which RFC 6455 restricts to GET). -/
theorem C2_no_post_exec_route :
    ∀ (ns pod container query : String) (logQueryOk : Bool),
      requestHandled
        { method := .POST, path := ["exec", ns, pod, container],
          rawQuery := some query, wsUpgrade := false,
          logQueryOk := logQueryOk } = false := by
  intro ns pod container query lq
  simp [requestHandled, serverRoutes, routeAccepts]

/-- C3: against a worker in entry-point mode, `Runtime::exec` always
fails with one of the two channel errors and never returns a function
result, wherever the call falls relative to the worker dropping the exec
endpoints.  The hypothesis captures entry-point mode: the branch that
runs the designated entry point drops `command_rx` and `response_tx`
before calling it (wasi_runtime.rs lines 331-333) and contains no send on
`response_tx`, so every response-channel state such an exec can observe
has an empty buffer, and its blocking receive can only complete at
disconnect.  The command-channel state is arbitrary: its receiver end is
alive before the drop and gone after, and both cases are covered. -/
theorem C3_exec_channel_error :
    ∀ (cmdCh : ChannelSt Command) (respCh : ChannelSt (Except String String))
      (c : Command), respCh.buffer = [] →
      runtime_exec cmdCh respCh c
          = .error (.channel "Cannot send the exec command to the runtime")
        ∨ runtime_exec cmdCh respCh c
          = .error (.channel "Cannot receive the exec response from the runtime") := by
  intro cmdCh respCh c hresp
  unfold runtime_exec mpsc_send mpsc_recv
  by_cases h : cmdCh.rxAlive
  · right
    rw [hresp]
    simp [h]
  · left
    simp [h]

/-- C3 witness: a concrete exec (command channel still open, response
channel empty with the sender gone) fails with a channel error. -/
theorem C3_witness :
    runtime_exec ⟨[], true, true⟩ ⟨[], false, false⟩ ⟨"add", ["1", "2"]⟩
        = .error (.channel "Cannot send the exec command to the runtime")
      ∨ runtime_exec ⟨[], true, true⟩ ⟨[], false, false⟩ ⟨"add", ["1", "2"]⟩
        = .error (.channel "Cannot receive the exec response from the runtime") :=
  C3_exec_channel_error ⟨[], true, true⟩ ⟨[], false, false⟩ ⟨"add", ["1", "2"]⟩ rfl

/-- C4, counterexample: with fewer arguments than parameters the error is
not always the arity error — for parameters `(i32, i32)` and the single
argument `x`, coercion of `x` fails first, so the reported error is the
parse failure; and with more arguments than parameters coercion does not
always succeed — for parameter `(i32)` and arguments `x`, `2`, it fails
on `x`. -/
theorem C4_counterexample :
    parse_args [.I32, .I32] ["x"] = .error (.ParseFailure .I32 "x")
    ∧ parse_args [.I32] ["x", "2"] = .error (.ParseFailure .I32 "x") := by
  decide

/-- C4, amended: when the argument list is shorter than the parameter
list and every provided argument coerces against its parameter, coercion
fails with the arity error (so the export is not invoked); and arguments
beyond the declared parameter count are silently ignored: the result
equals the coercion of just the first n arguments, n the parameter
count. -/
theorem C4_arity_behavior :
    (∀ (params : List ValType) (args : List String),
      args.length < params.length →
      (∀ p ∈ params.zip args, (coerceVal p.1 p.2).isOk = true) →
      parse_args params args = .error .NotEnoughArguments)
    ∧ (∀ (params : List ValType) (args : List String),
      params.length ≤ args.length →
      parse_args params args = parse_args params (args.take params.length)) :=
  ⟨fun params args => parse_args_short params args,
   fun params args => parse_args_truncate params args⟩

/-- C4 witness: params `(i32, i32)` with the lone coercible argument `1`
give the arity error, and params `(i32)` with arguments `1`, `2` behave
as with the single argument `1`. -/
theorem C4_witness :
    parse_args [.I32, .I32] ["1"] = .error .NotEnoughArguments
    ∧ parse_args [.I32] ["1", "2"]
        = parse_args [.I32] (["1", "2"].take 1) :=
  ⟨C4_arity_behavior.1 [.I32, .I32] ["1"] (by decide) (by decide),
   C4_arity_behavior.2 [.I32] ["1", "2"] (by decide)⟩

/-- C5, counterexample: the string `1.5` does not coerce to an f32 value
for an f32 parameter — it is rejected with a parse failure, because the
wasmtime `Val::F32` payload is the raw `u32` bit pattern and the argument
is parsed as a `u32`. -/
theorem C5_counterexample :
    parse_args [.F32] ["1.5"] = .error (.ParseFailure .F32 "1.5") := by
  decide

/-- C5, amended: i32/i64 parameters parse their argument as a decimal
signed integer (shown on canonical decimal strings, with and without a
leading minus sign); f32/f64 parameters parse their argument as the
decimal representation of the raw unsigned 32/64-bit pattern, not as a
float (so a fractional string such as `1.5` fails); a parameter of any
other kind yields the unsupported-type error for every argument; and a
string that does not parse as the required kind yields the parse-failure
error. -/
theorem C5_coercion_decimal :
    (∀ n : Nat, n < 2 ^ 31 →
      coerceVal .I32 (String.mk (decimalDigits n)) = .ok (.I32 (n : Int)))
    ∧ (∀ n : Nat, n ≤ 2 ^ 31 →
      coerceVal .I32 (String.mk ('-' :: decimalDigits n)) = .ok (.I32 (-(n : Int))))
    ∧ (∀ n : Nat, n < 2 ^ 63 →
      coerceVal .I64 (String.mk (decimalDigits n)) = .ok (.I64 (n : Int)))
    ∧ (∀ n : Nat, n < 2 ^ 32 →
      coerceVal .F32 (String.mk (decimalDigits n)) = .ok (.F32 n))
    ∧ (∀ n : Nat, n < 2 ^ 64 →
      coerceVal .F64 (String.mk (decimalDigits n)) = .ok (.F64 n))
    ∧ coerceVal .F32 "1.5" = .error (.ParseFailure .F32 "1.5")
    ∧ (∀ arg, coerceVal .V128 arg = .error (.UnsupportedArgumentType .V128))
    ∧ (∀ arg, coerceVal .ExtRef arg = .error (.UnsupportedArgumentType .ExtRef))
    ∧ (∀ arg, coerceVal .FunRef arg = .error (.UnsupportedArgumentType .FunRef))
    ∧ (∀ arg, parseSignedRust 32 arg = none →
      coerceVal .I32 arg = .error (.ParseFailure .I32 arg))
    ∧ (∀ arg, parseUnsignedRust 32 arg = none →
      coerceVal .F32 arg = .error (.ParseFailure .F32 arg)) := by
  refine ⟨?_, ?_, ?_, ?_, ?_, by decide, by intro arg; rfl, by intro arg; rfl,
    by intro arg; rfl, ?_, ?_⟩
  · intro n h
    have := parseSignedRust_decimal 32 n (by push_cast; omega)
    simp [coerceVal, this]
  · intro n h
    have := parseSignedRust_decimal_neg 32 n (by push_cast; omega)
    simp [coerceVal, this]
  · intro n h
    have := parseSignedRust_decimal 64 n (by push_cast; omega)
    simp [coerceVal, this]
  · intro n h
    have := parseUnsignedRust_decimal 32 n h
    simp [coerceVal, this]
  · intro n h
    have := parseUnsignedRust_decimal 64 n h
    simp [coerceVal, this]
  · intro arg h
    simp [coerceVal, h]
  · intro arg h
    simp [coerceVal, h]

/-- C5 witness: concrete instances of each coercion branch — `1` as i32
is the integer one, `-1` as i32 is minus one, `1` as f32 is the bit
pattern one, and `x` as i32 is a parse failure. -/
theorem C5_witness :
    coerceVal .I32 (String.mk (decimalDigits 1)) = .ok (.I32 1)
    ∧ coerceVal .I32 (String.mk ('-' :: decimalDigits 1)) = .ok (.I32 (-1))
    ∧ coerceVal .F32 (String.mk (decimalDigits 1)) = .ok (.F32 1)
    ∧ coerceVal .I32 "x" = .error (.ParseFailure .I32 "x") :=
  ⟨C5_coercion_decimal.1 1 (by decide),
   C5_coercion_decimal.2.1 1 (by norm_num),
   C5_coercion_decimal.2.2.2.1 1 (by norm_num),
   C5_coercion_decimal.2.2.2.2.2.2.2.2.2.1 "x" (by decide)⟩

/-- C6, counterexample: `parse_command` on the empty string does not fail
— it succeeds with an empty function name and no arguments. -/
theorem C6_counterexample :
    parse_command "" = .ok ⟨"", []⟩
    ∧ (parse_command "").isOk = true := by
  decide

/-- C6, amended: `parse_command "add 1 2"` yields function `add` with
args `1`, `2` (first space-delimited token is the function, the rest are
positional args in order); on the empty string it does not fail but
returns the command with empty function name and no args. -/
theorem C6_parse_command_examples :
    parse_command "add 1 2" = .ok ⟨"add", ["1", "2"]⟩
    ∧ parse_command "" = .ok ⟨"", []⟩ := by
  decide

/-- C7: query parsing takes the value of the first `command` pair as the
function and the values of every later `command` pair as args in
encounter order (shown concretely and, for every successfully parsed
query, against the spec-side `commandValues` reading), with all four
stdio/tty flags false; a pair without an equals sign anywhere in the
query is a parse failure, and a query with no `command` pair is a parse
failure. -/
theorem C7_parse_exec_query_spec :
    parse_exec_query "command=add&command=1&command=2"
      = .ok ⟨⟨"add", ["1", "2"]⟩, false, false, false, false⟩
    ∧ (∀ query opts, parse_exec_query query = .ok opts →
        opts.command.function :: opts.command.args = commandValues query
        ∧ opts.stdin = false ∧ opts.stdout = false ∧ opts.stderr = false
        ∧ opts.tty = false)
    ∧ (∀ query, (∃ pair ∈ splitOnChar '&' query.data, pairHasValue pair = false) →
        ∃ e, parse_exec_query query = .error e)
    ∧ (∀ query, commandValues query = [] →
        ∃ e, parse_exec_query query = .error e) := by
  refine ⟨by decide, ?_, ?_, ?_⟩
  · intro query opts h
    unfold parse_exec_query at h
    rw [parseQueryPairs_none] at h
    by_cases hall : (splitOnChar '&' query.data).all pairHasValue
    · rw [if_pos hall] at h
      cases hcv : pairCommandValues (splitOnChar '&' query.data) with
      | nil => rw [hcv] at h; exact absurd h (by simp)
      | cons v vs =>
        rw [hcv] at h
        simp only [List.nil_append] at h
        cases h
        exact ⟨by simpa [commandValues] using hcv.symm, rfl, rfl, rfl, rfl⟩
    · rw [if_neg hall] at h
      exact absurd h (by simp)
  · intro query hex
    have hall : (splitOnChar '&' query.data).all pairHasValue = false := by
      obtain ⟨pair, hmem, hpv⟩ := hex
      rw [List.all_eq_false]
      exact ⟨pair, hmem, by simp [hpv]⟩
    refine ⟨"Cannot get the query value", ?_⟩
    unfold parse_exec_query
    rw [parseQueryPairs_none, if_neg (by simp [hall])]
  · intro query hcv
    unfold parse_exec_query
    rw [parseQueryPairs_none]
    by_cases hall : (splitOnChar '&' query.data).all pairHasValue
    · rw [if_pos hall]
      unfold commandValues at hcv
      rw [hcv]
      exact ⟨"Error while parsing the exec query string", rfl⟩
    · rw [if_neg hall]
      exact ⟨"Cannot get the query value", rfl⟩

/-- C7 witness: the characterization applied to the concrete query with
three `command` pairs, the failing pair `command` without an equals sign,
and the failing query `foo=bar` with no `command` key. -/
theorem C7_witness :
    ((⟨⟨"add", ["1", "2"]⟩, false, false, false, false⟩ : CommandOptions).command.function
        :: (⟨⟨"add", ["1", "2"]⟩, false, false, false, false⟩ : CommandOptions).command.args
      = commandValues "command=add&command=1&command=2")
    ∧ (∃ e, parse_exec_query "command" = .error e)
    ∧ (∃ e, parse_exec_query "foo=bar" = .error e) :=
  ⟨(C7_parse_exec_query_spec.2.1 "command=add&command=1&command=2"
      ⟨⟨"add", ["1", "2"]⟩, false, false, false, false⟩ (by decide)).1,
   C7_parse_exec_query_spec.2.2.1 "command"
     ⟨"command".data, by decide, by decide⟩,
   C7_parse_exec_query_spec.2.2.2 "foo=bar" (by decide)⟩

/-- C8, counterexample: a reference return value is not rendered to a
decimal string — `stringify_val` renders it as the fixed text
`<externref>`, which is not the decimal form of any value. -/
theorem C8_counterexample :
    stringify_val .FunRef = "<externref>"
    ∧ isDecimalString (stringify_val .FunRef) = false := by
  decide

/-- C8, amended: the response is the stringified return values joined
with newline separators; every numeric return value (i32, i64, the raw
bit patterns carried by f32/f64, v128) renders as the decimal form of its
payload, while reference values render as the fixed text `<externref>`;
shown also on a concrete multi-value result. -/
theorem C8_result_rendering :
    (∀ result, exec_result_message result
        = String.intercalate "\n" (result.map stringify_val))
    ∧ (∀ v, isNumericVal v = true → isDecimalString (stringify_val v) = true)
    ∧ stringify_val .ExtRef = "<externref>"
    ∧ stringify_val .FunRef = "<externref>"
    ∧ exec_result_message [.I32 42, .I64 (-7), .F32 3] = "42\n-7\n3" := by
  refine ⟨fun result => rfl, ?_, rfl, rfl, by decide⟩
  intro v hv
  cases v with
  | I32 i => exact isDecimalString_intToString i
  | I64 i => exact isDecimalString_intToString i
  | F32 b => exact isDecimalString_natToString b
  | F64 b => exact isDecimalString_natToString b
  | V128 i => exact isDecimalString_natToString i
  | ExtRef => exact absurd hv (by simp [isNumericVal])
  | FunRef => exact absurd hv (by simp [isNumericVal])

/-- C8 witness: a numeric value renders as a decimal string. -/
theorem C8_witness :
    isDecimalString (stringify_val (.I32 5)) = true :=
  C8_result_rendering.2.1 (.I32 5) rfl

/-- C9: for every query that parses successfully, the WebSocket exec
handler writes exactly one binary frame — the stdout tag byte 1 followed
by the UTF-8 bytes of the result string when the provider exec succeeds,
or the stderr tag byte 2 followed by the UTF-8 bytes of the error
message when it fails — and nothing else is ever written before or after
that frame. -/
theorem C9_ws_single_frame :
    ∀ (query : String) (opts : CommandOptions)
      (providerExec : CommandOptions → Except String String),
      parse_exec_query query = .ok opts →
      (handle_exec_frames query providerExec).length = 1
      ∧ ((∃ s, providerExec opts = .ok s
            ∧ handle_exec_frames query providerExec
              = [STDOUT_CHANNEL :: utf8Bytes s])
        ∨ (∃ e, providerExec opts = .error e
            ∧ handle_exec_frames query providerExec
              = [STDERR_CHANNEL :: utf8Bytes e])) := by
  intro query opts providerExec h
  have hframes : handle_exec_frames query providerExec
      = match providerExec opts with
        | .ok s => [STDOUT_CHANNEL :: utf8Bytes s]
        | .error e => [STDERR_CHANNEL :: utf8Bytes e] := by
    simp only [handle_exec_frames, h]
  cases hp : providerExec opts with
  | ok s =>
    rw [hp] at hframes
    exact ⟨by rw [hframes]; rfl, .inl ⟨s, rfl, hframes⟩⟩
  | error e =>
    rw [hp] at hframes
    exact ⟨by rw [hframes]; rfl, .inr ⟨e, rfl, hframes⟩⟩

/-- C9 witness: a concrete parsed query against a provider that succeeds
with `42` produces exactly one frame. -/
theorem C9_witness :
    (handle_exec_frames "command=foo" (fun _ => .ok "42")).length = 1 :=
  (C9_ws_single_frame "command=foo" ⟨⟨"foo", []⟩, false, false, false, false⟩
    (fun _ => .ok "42") (by decide)).1

/-- C10: `parse_command` is total — for every input string it returns
`Ok`, with the function being the text up to the first space character
and the args being the remaining single-space-separated segments; in
particular consecutive spaces produce empty-string arguments, shown on a
concrete input. -/
theorem C10_parse_command_total :
    (∀ s : String, parse_command s =
      .ok ⟨String.mk (s.data.takeWhile (fun c => c != spaceChar)),
           ((splitOnChar spaceChar s.data).map String.mk).drop 1⟩)
    ∧ parse_command "a  b" = .ok ⟨"a", ["", "b"]⟩ := by
  constructor
  · intro s
    obtain ⟨ts, hts⟩ := splitOnChar_head spaceChar s.data
    simp [parse_command, hts]
  · decide

end Krustlet
